import Mathlib

/-!
# Verification of the TBOT task state machine

A shallow embedding of the task-tracking core of the TBOT repository
(`tbot/tasks.py`, `tbot/task_logic.py`, and the due-date helper of
`tbot/bot.py`), together with theorems settling the claims of the specification
about it.

Modelling conventions:
* Python `datetime` values are modelled as `Int` timestamps (seconds);
  `timedelta(days = d)` is `d * 86400`.  Only their linear order matters.
* Python `int` user identifiers are `Nat`; the value `0` is the "unset"
  responsible user, matching the truthiness tests of the code
  (`if task.responsible_user_id:`).
* `Task.participant_statuses` (a Python dict with a lazy `NEW` default:
  every read goes through `get_participant_status`, which inserts `NEW`
  for a missing key before returning it) is modelled as a total map
  `Nat → TaskStatus`; an absent entry is identified with `NEW`, so
  `ensure_participant_entry` is the identity and `get_participant_status`
  is function application.  Dict membership is never observed except
  through that defaulting read, so the models coincide observationally.
* Python `set` / `frozenset` of identifiers are `Finset Nat`.
* The in-memory store (`TASKS`, the id counter) and the ambient clock are
  environment inputs: `create_task` receives the fresh `task_id`, the
  creation timestamp and the reference time of its final
  `refresh_task_status` call as explicit arguments.
-/

namespace TBot

/-- The `TaskStatus` enum from `tbot/tasks.py` (display strings dropped). -/
inductive TaskStatus where
  | NEW
  | ACTIVE
  | PAUSED
  | IN_REVIEW
  | COMPLETED
  | OVERDUE
deriving DecidableEq, Repr

/-- The `TaskPriority` enum from `tbot/tasks.py` (display strings dropped). -/
inductive TaskPriority where
  | LOW
  | MEDIUM
  | HIGH
  | CRITICAL
deriving DecidableEq, Repr

/-- The `Task` dataclass of `tbot/tasks.py`, with the modelling
conventions listed in the file header. -/
structure Task where
  task_id : Nat
  title : String
  description : String
  author_id : Nat
  created_date : Int
  due_date : Option Int
  priority : TaskPriority
  status : TaskStatus := TaskStatus.NEW
  project : String := ""
  direction : String := ""
  responsible_user_id : Nat := 0
  workgroup : List Nat := []
  is_private : Bool := false
  completed_date : Option Int := none
  current_executor_id : Option Nat := none
  last_action : Option String := none
  last_actor_id : Option Nat := none
  last_action_time : Option Int := none
  status_before_overdue : Option TaskStatus := none
  participant_statuses : Nat → TaskStatus := fun _ => TaskStatus.NEW
  pending_confirmations : Finset Nat := ∅
  awaiting_author_confirmation : Bool := false

/-- Embeds `get_task_participants`: `{author} ∪ {responsible if truthy} ∪ workgroup`. -/
def get_task_participants (t : Task) : Finset Nat :=
  insert t.author_id
    ((if t.responsible_user_id ≠ 0 then {t.responsible_user_id} else ∅) ∪
      t.workgroup.toFinset)

/-- The list comprehension
`[p for p in get_task_participants(task) if p != task.author_id]` used by
both `_sync_author_status` and `calculate_overall_status`.  Its `any`/`all`
consumers are order-independent, so a `Finset` suffices. -/
def non_author_participants (t : Task) : Finset Nat :=
  (get_task_participants t).erase t.author_id

/-- Embeds `get_participant_status`: in the total-map model the lazy `NEW`
default of `ensure_participant_entry` is already built in. -/
def get_participant_status (t : Task) (user_id : Nat) : TaskStatus :=
  t.participant_statuses user_id

/-- Models `task.participant_statuses[user_id] = status` (a dict write; in the
total-map model a pointwise function update). -/
def writeStatus (t : Task) (user_id : Nat) (status : TaskStatus) : Task :=
  { t with participant_statuses :=
      Function.update t.participant_statuses user_id status }

/-- Embeds `_sync_author_status` from `tbot/tasks.py`. -/
def _sync_author_status (t : Task) : Task :=
  if non_author_participants t = ∅ then t
  else if t.awaiting_author_confirmation = true ∧ t.pending_confirmations ≠ ∅ then
    writeStatus t t.author_id TaskStatus.IN_REVIEW
  else if ∃ p ∈ non_author_participants t,
      get_participant_status t p = TaskStatus.ACTIVE then
    writeStatus t t.author_id TaskStatus.ACTIVE
  else if ∃ p ∈ non_author_participants t,
      get_participant_status t p = TaskStatus.PAUSED then
    writeStatus t t.author_id TaskStatus.PAUSED
  else if ∀ p ∈ non_author_participants t,
      get_participant_status t p = TaskStatus.COMPLETED then
    writeStatus t t.author_id TaskStatus.COMPLETED
  else
    writeStatus t t.author_id TaskStatus.NEW

/-- Embeds `calculate_overall_status` from `tbot/tasks.py` (the source ends with
`if any(status == NEW ...): return NEW` followed by `return NEW`; both
arms are kept). -/
def calculate_overall_status (t : Task) : TaskStatus :=
  if t.awaiting_author_confirmation = true ∧ t.pending_confirmations ≠ ∅ then
    TaskStatus.IN_REVIEW
  else if non_author_participants t = ∅ then TaskStatus.NEW
  else if ∀ p ∈ non_author_participants t,
      get_participant_status t p = TaskStatus.COMPLETED then
    TaskStatus.COMPLETED
  else if ∃ p ∈ non_author_participants t,
      get_participant_status t p = TaskStatus.ACTIVE then
    TaskStatus.ACTIVE
  else if ∃ p ∈ non_author_participants t,
      get_participant_status t p = TaskStatus.PAUSED then
    TaskStatus.PAUSED
  else if ∃ p ∈ non_author_participants t,
      get_participant_status t p = TaskStatus.NEW then
    TaskStatus.NEW
  else TaskStatus.NEW

/-- Embeds `recalc_task_status` from `tbot/tasks.py`. -/
def recalc_task_status (t : Task) : Task :=
  let new_status := calculate_overall_status t
  let t1 :=
    if t.status = TaskStatus.OVERDUE then
      { t with status_before_overdue := some new_status }
    else
      { t with status := new_status, status_before_overdue := none }
  _sync_author_status t1

/-- Models `task.due_date and task.due_date < reference` (a `datetime` is always
truthy, so this is "a due date exists and lies strictly before the
reference"). -/
def due_before (t : Task) (reference : Int) : Bool :=
  match t.due_date with
  | some d => decide (d < reference)
  | none => false

/-- Models `task.due_date and task.due_date >= reference`. -/
def due_on_or_after (t : Task) (reference : Int) : Bool :=
  match t.due_date with
  | some d => decide (reference ≤ d)
  | none => false

/-- Models `task.status_before_overdue or calculate_overall_status(task)`
(`TaskStatus` members are truthy, so `or` is a `None` fallback), followed
by the two assignments of the restore arms of `refresh_task_status`. -/
def restore_from_overdue (t : Task) : Task :=
  { t with
      status := t.status_before_overdue.getD (calculate_overall_status t),
      status_before_overdue := none }

/-- Embeds `refresh_task_status` from `tbot/tasks.py`, with the implicit
`datetime.now()` default made an explicit `reference` argument. -/
def refresh_task_status (t : Task) (reference : Int) : Task :=
  if t.status = TaskStatus.COMPLETED then t
  else if due_before t reference = true then
    let t1 :=
      if t.status ≠ TaskStatus.OVERDUE then
        { t with status_before_overdue := some (calculate_overall_status t) }
      else t
    { t1 with status := TaskStatus.OVERDUE }
  else if t.status = TaskStatus.OVERDUE then
    if due_on_or_after t reference = true then restore_from_overdue t
    else if t.due_date = none then restore_from_overdue t
    else t
  else recalc_task_status t

/-- Embeds `set_participant_status` from `tbot/tasks.py`. -/
def set_participant_status (t : Task) (user_id : Nat) (status : TaskStatus) :
    Task :=
  let t1 := writeStatus t user_id status
  if user_id ≠ t.author_id then _sync_author_status t1 else t1

/-- Embeds `set_all_participants_status` from `tbot/tasks.py`.  The source loops
`set_participant_status` over the participant set (in unspecified set
order) and then syncs the author once more.  Every intermediate author
sync writes only the author entry, and the final `_sync_author_status`
rewrites that entry whenever a non-author participant exists (and is the
identity otherwise, in which case the last effect the loop had on the author was
the plain write of `status`); so the loop is extensionally "write `status`
to every participant, then sync", independently of iteration order. -/
def set_all_participants_status (t : Task) (status : TaskStatus) : Task :=
  let t1 := { t with participant_statuses := fun u =>
      if u ∈ get_task_participants t then status else t.participant_statuses u }
  _sync_author_status t1

/-- Embeds `add_pending_confirmation` from `tbot/tasks.py`. -/
def add_pending_confirmation (t : Task) (user_id : Nat) : Task :=
  recalc_task_status
    { t with
        pending_confirmations := insert user_id t.pending_confirmations,
        awaiting_author_confirmation := true }

/-- Embeds `remove_pending_confirmation` from `tbot/tasks.py` (`erase` is the
identity when the element is absent, matching the guarded `remove`). -/
def remove_pending_confirmation (t : Task) (user_id : Nat) : Task :=
  let t1 := { t with
      pending_confirmations := t.pending_confirmations.erase user_id }
  let t2 :=
    if t1.pending_confirmations = ∅ then
      { t1 with awaiting_author_confirmation := false }
    else t1
  recalc_task_status t2

/-- Embeds `clear_pending_confirmations` from `tbot/tasks.py`. -/
def clear_pending_confirmations (t : Task) : Task :=
  recalc_task_status
    { t with
        pending_confirmations := ∅,
        awaiting_author_confirmation := false }

/-- Embeds `create_task` from `tbot/tasks.py`.  The fresh identifier, the
creation timestamp and the reference time of the final
`refresh_task_status` call (`datetime.now()` in the source) are explicit
arguments; the store insertion is environment bookkeeping and is dropped.
The dict comprehension `{p: NEW for p in participants}` is the constant
`NEW` map in the total-map model. -/
def create_task (task_id : Nat) (created_date now : Int)
    (title description : String) (author_id : Nat) (priority : TaskPriority)
    (due_date : Option Int) (project direction : String)
    (responsible_user_id : Nat) (workgroup : List Nat) (is_private : Bool) :
    Task :=
  let task : Task :=
    { task_id, title, description, author_id, created_date, due_date,
      priority, project, direction, responsible_user_id, workgroup,
      is_private,
      status := TaskStatus.NEW,
      completed_date := none,
      current_executor_id := none,
      last_action := none,
      last_actor_id := none,
      last_action_time := none,
      status_before_overdue := none,
      participant_statuses := fun _ => TaskStatus.NEW,
      pending_confirmations := ∅,
      awaiting_author_confirmation := false }
  refresh_task_status task now

/-- The `priority_days` table of `calculate_due_date` in `tbot/bot.py`. -/
def priority_days : List (TaskPriority × Int) :=
  [(TaskPriority.CRITICAL, 1), (TaskPriority.HIGH, 3),
   (TaskPriority.MEDIUM, 10), (TaskPriority.LOW, 15)]

/-- Embeds `calculate_due_date` from `tbot/bot.py`:
`created_date + timedelta(days = priority_days.get(priority, 10))`. -/
def calculate_due_date (priority : TaskPriority) (created_date : Int) : Int :=
  created_date + (priority_days.lookup priority).getD 10 * 86400

/-- The creation flow of `tbot/bot.py` (priority step, lines 1375-1378):
when no due date was entered, `calculate_due_date` fills it in before
`create_task` is called with the resulting date. -/
def create_task_with_auto_due (task_id : Nat) (created_date now : Int)
    (title description : String) (author_id : Nat) (priority : TaskPriority)
    (due_date : Option Int) (project direction : String)
    (responsible_user_id : Nat) (workgroup : List Nat) (is_private : Bool) :
    Task :=
  let dd :=
    match due_date with
    | none => some (calculate_due_date priority created_date)
    | some d => some d
  create_task task_id created_date now title description author_id priority
    dd project direction responsible_user_id workgroup is_private

/-- The `ActivityEntry` record from `tbot/task_logic.py` (`__post_init__` only
normalizes the representation of `related_participants`; a `Finset` is
already normal). -/
structure ActivityEntry where
  actor_id : Nat
  description : String
  is_status_change : Bool := false
  related_participants : Finset Nat := ∅
deriving DecidableEq

/-- Embeds `recipients_on_confirmation` from `tbot/task_logic.py`
(`if responsible_id and responsible_id != actor_id` is Python truthiness:
present and nonzero and distinct from the actor). -/
def recipients_on_confirmation (author_id : Nat) (responsible_id : Option Nat)
    (actor_id participant_id : Nat) : Finset Nat :=
  let recipients : Finset Nat := {participant_id}
  let recipients :=
    if author_id ≠ actor_id then insert author_id recipients else recipients
  match responsible_id with
  | some rid =>
      if rid ≠ 0 ∧ rid ≠ actor_id then insert rid recipients else recipients
  | none => recipients

/-- Embeds `filter_activity_feed` from `tbot/task_logic.py`; the loop with
`continue`s is the filter by the chain of its guards. -/
def filter_activity_feed (entries : List ActivityEntry)
    (viewer_id author_id : Nat) : List ActivityEntry :=
  if viewer_id = author_id then entries
  else
    entries.filter fun entry =>
      if entry.actor_id = viewer_id then true
      else if entry.is_status_change = false then false
      else if viewer_id ∉ entry.related_participants then false
      else if entry.actor_id = author_id ∧ 1 < entry.related_participants.card
        then false
      else true

/-! ## Spec-side definitions and predicates

`calculate_overall_status_spec` is the derivation rule exactly as §4.2 of
the spec words it, to be compared with the source version
`calculate_overall_status`; the predicates below name the invariants the
claims quantify over. -/

/-- The aggregate-status derivation as worded in §4.2 of the spec: rule 1 is
keyed on the `awaiting_author_confirmation` flag alone ("If
`awaiting_author_confirmation` is true → IN_REVIEW"). -/
def calculate_overall_status_spec (t : Task) : TaskStatus :=
  if t.awaiting_author_confirmation = true then TaskStatus.IN_REVIEW
  else if non_author_participants t = ∅ then TaskStatus.NEW
  else if ∀ p ∈ non_author_participants t,
      get_participant_status t p = TaskStatus.COMPLETED then
    TaskStatus.COMPLETED
  else if ∃ p ∈ non_author_participants t,
      get_participant_status t p = TaskStatus.ACTIVE then
    TaskStatus.ACTIVE
  else if ∃ p ∈ non_author_participants t,
      get_participant_status t p = TaskStatus.PAUSED then
    TaskStatus.PAUSED
  else TaskStatus.NEW

/-- The data-model invariant
`awaiting_author_confirmation == (len(pending_confirmations) > 0)`. -/
def pending_flag_consistent (t : Task) : Prop :=
  t.awaiting_author_confirmation = true ↔ t.pending_confirmations ≠ ∅

/-- Invariant: `status_before_overdue` is non-null only while the stored status is
OVERDUE. -/
def snapshot_only_when_overdue (t : Task) : Prop :=
  t.status ≠ TaskStatus.OVERDUE → t.status_before_overdue = none

instance (t : Task) : Decidable (pending_flag_consistent t) := by
  unfold pending_flag_consistent
  infer_instance

instance (t : Task) : Decidable (snapshot_only_when_overdue t) := by
  unfold snapshot_only_when_overdue
  infer_instance

/-- The characterization given by the spec of the feed a non-author viewer
sees: entries the
viewer authored themselves, plus status-change entries listing the viewer
among the related participants, except those authored by the author of the task
with more than one related participant. -/
def visible_to_non_author (viewer_id author_id : Nat) (e : ActivityEntry) :
    Prop :=
  e.actor_id = viewer_id ∨
    (e.is_status_change = true ∧ viewer_id ∈ e.related_participants ∧
      ¬(e.actor_id = author_id ∧ 1 < e.related_participants.card))

instance (viewer_id author_id : Nat) (e : ActivityEntry) :
    Decidable (visible_to_non_author viewer_id author_id e) := by
  unfold visible_to_non_author
  infer_instance

/-- The characterization given by the spec of `recipients_on_confirmation`: the
confirmed participant, plus the author and the responsible with the actor
excluded.  "The responsible" exists only when set (`None` or `0` both
encode "unset" in the source). -/
def recipients_on_confirmation_spec (author_id : Nat)
    (responsible_id : Option Nat) (actor_id participant_id : Nat) :
    Finset Nat :=
  insert participant_id
    ((insert author_id
        (match responsible_id with
          | some rid => if rid ≠ 0 then {rid} else ∅
          | none => ∅)) \ {actor_id})

/-! ## Concrete tasks and entries used by witnesses and counterexamples -/

/-- A task with author 1 and workgroup {2, 3}, where participant 2 is
ACTIVE and participant 3 is NEW. -/
def activeTask : Task :=
  { task_id := 1, title := "t", description := "", author_id := 1,
    created_date := 0, due_date := none, priority := TaskPriority.MEDIUM,
    workgroup := [2, 3],
    participant_statuses := fun u =>
      if u = 2 then TaskStatus.ACTIVE else TaskStatus.NEW }

/-- A task whose only non-author participant is COMPLETED while their
confirmation is still pending. -/
def completedPendingTask : Task :=
  { task_id := 2, title := "t", description := "", author_id := 1,
    created_date := 0, due_date := none, priority := TaskPriority.MEDIUM,
    workgroup := [2],
    participant_statuses := fun u =>
      if u = 2 then TaskStatus.COMPLETED else TaskStatus.NEW,
    pending_confirmations := {2},
    awaiting_author_confirmation := true }

/-- An already-OVERDUE task holding a stale PAUSED snapshot while its only
non-author participant is ACTIVE, with a past due date. -/
def staleOverdueTask : Task :=
  { task_id := 3, title := "t", description := "", author_id := 1,
    created_date := 0, due_date := some 0,
    priority := TaskPriority.MEDIUM,
    status := TaskStatus.OVERDUE,
    status_before_overdue := some TaskStatus.PAUSED,
    workgroup := [2],
    participant_statuses := fun u =>
      if u = 2 then TaskStatus.ACTIVE else TaskStatus.NEW }

/-- An ACTIVE, not-yet-overdue task with a due date at time 0. -/
def dueActiveTask : Task :=
  { task_id := 4, title := "t", description := "", author_id := 1,
    created_date := 0, due_date := some 0,
    priority := TaskPriority.MEDIUM,
    status := TaskStatus.ACTIVE,
    workgroup := [2],
    participant_statuses := fun u =>
      if u = 2 then TaskStatus.ACTIVE else TaskStatus.NEW }

/-- A COMPLETED task (with a long-past due date, so only the COMPLETED
guard shields it from the overdue overlay). -/
def completedTask : Task :=
  { task_id := 5, title := "t", description := "", author_id := 1,
    created_date := 0, due_date := some 0,
    priority := TaskPriority.MEDIUM,
    status := TaskStatus.COMPLETED,
    completed_date := some 3,
    workgroup := [2],
    participant_statuses := fun u =>
      if u = 2 then TaskStatus.COMPLETED else TaskStatus.NEW }

/-- Activity entries exercising every branch of `filter_activity_feed`:
a plain entry by the viewer, a plain entry by someone else, a broad
author-driven status change naming {3, 8}, and a targeted status change
naming {3} only. -/
def feedEntries : List ActivityEntry :=
  [{ actor_id := 3, description := "a" },
   { actor_id := 2, description := "b" },
   { actor_id := 1, description := "c", is_status_change := true,
     related_participants := {3, 8} },
   { actor_id := 1, description := "d", is_status_change := true,
     related_participants := {3} },
   { actor_id := 4, description := "e", is_status_change := true,
     related_participants := {3, 8} }]

end TBot

namespace TBot

/-! ## Helper lemmas -/

/-- Structurally, `_sync_author_status` either leaves the task untouched or performs a
single write to the author entry. -/
lemma sync_cases (t : Task) :
    _sync_author_status t = t ∨
      ∃ v, _sync_author_status t = writeStatus t t.author_id v := by
  unfold _sync_author_status
  repeat' split
  · exact Or.inl rfl
  all_goals exact Or.inr ⟨_, rfl⟩

lemma sync_author_id (t : Task) :
    (_sync_author_status t).author_id = t.author_id := by
  rcases sync_cases t with h | ⟨v, h⟩ <;> (rw [h]; try rfl)

lemma sync_status (t : Task) : (_sync_author_status t).status = t.status := by
  rcases sync_cases t with h | ⟨v, h⟩ <;> (rw [h]; try rfl)

lemma sync_status_before_overdue (t : Task) :
    (_sync_author_status t).status_before_overdue = t.status_before_overdue := by
  rcases sync_cases t with h | ⟨v, h⟩ <;> (rw [h]; try rfl)

lemma sync_due_date (t : Task) :
    (_sync_author_status t).due_date = t.due_date := by
  rcases sync_cases t with h | ⟨v, h⟩ <;> (rw [h]; try rfl)

lemma sync_pending (t : Task) :
    (_sync_author_status t).pending_confirmations = t.pending_confirmations := by
  rcases sync_cases t with h | ⟨v, h⟩ <;> (rw [h]; try rfl)

lemma sync_awaiting (t : Task) :
    (_sync_author_status t).awaiting_author_confirmation =
      t.awaiting_author_confirmation := by
  rcases sync_cases t with h | ⟨v, h⟩ <;> (rw [h]; try rfl)

lemma sync_non_author (t : Task) :
    non_author_participants (_sync_author_status t) =
      non_author_participants t := by
  rcases sync_cases t with h | ⟨v, h⟩ <;> (rw [h]; try rfl)

/-- Congruence: `calculate_overall_status` only reads the confirmation state and the
statuses of the non-author participants. -/
lemma calc_congr (t t' : Task)
    (h1 : t'.awaiting_author_confirmation = t.awaiting_author_confirmation)
    (h2 : t'.pending_confirmations = t.pending_confirmations)
    (h3 : non_author_participants t' = non_author_participants t)
    (h4 : ∀ p ∈ non_author_participants t,
      t'.participant_statuses p = t.participant_statuses p) :
    calculate_overall_status t' = calculate_overall_status t := by
  have hA : ∀ X, (∀ p ∈ non_author_participants t,
      get_participant_status t' p = X) ↔
      (∀ p ∈ non_author_participants t, get_participant_status t p = X) := by
    intro X
    constructor
    · intro h p hp
      have h' := h p hp
      rw [get_participant_status] at h' ⊢
      rw [← h4 p hp]
      exact h'
    · intro h p hp
      have h' := h p hp
      rw [get_participant_status] at h' ⊢
      rw [h4 p hp]
      exact h'
  have hE : ∀ X, (∃ p ∈ non_author_participants t,
      get_participant_status t' p = X) ↔
      (∃ p ∈ non_author_participants t, get_participant_status t p = X) := by
    intro X
    constructor
    · rintro ⟨p, hp, h⟩
      refine ⟨p, hp, ?_⟩
      rw [get_participant_status] at h ⊢
      rw [← h4 p hp]
      exact h
    · rintro ⟨p, hp, h⟩
      refine ⟨p, hp, ?_⟩
      rw [get_participant_status] at h ⊢
      rw [h4 p hp]
      exact h
  unfold calculate_overall_status
  rw [h1, h2, h3]
  simp only [hA, hE]

/-- Writing the author entry does not change the aggregate status. -/
lemma calc_write_author (t : Task) (v : TaskStatus) :
    calculate_overall_status (writeStatus t t.author_id v) =
      calculate_overall_status t := by
  refine calc_congr t _ rfl rfl rfl ?_
  intro p hp
  have hpa : p ≠ t.author_id := Finset.ne_of_mem_erase hp
  exact Function.update_noteq hpa _ _

/-- When no confirmation is pending and some non-author participant is
ACTIVE, the aggregate status is ACTIVE. -/
lemma calc_eq_active (t : Task)
    (haw : t.awaiting_author_confirmation = false)
    (hact : ∃ p ∈ non_author_participants t,
      get_participant_status t p = TaskStatus.ACTIVE) :
    calculate_overall_status t = TaskStatus.ACTIVE := by
  obtain ⟨p, hp, hps⟩ := hact
  have hne : ¬(non_author_participants t = ∅) := by
    intro h
    rw [h] at hp
    exact absurd hp (Finset.not_mem_empty p)
  have hnc : ¬(t.awaiting_author_confirmation = true ∧
      t.pending_confirmations ≠ ∅) := by
    rintro ⟨h, -⟩
    rw [haw] at h
    exact Bool.noConfusion h
  have hnall : ¬(∀ q ∈ non_author_participants t,
      get_participant_status t q = TaskStatus.COMPLETED) := by
    intro hall
    have hc := hall p hp
    rw [hps] at hc
    exact TaskStatus.noConfusion hc
  unfold calculate_overall_status
  rw [if_neg hnc, if_neg hne, if_neg hnall, if_pos ⟨p, hp, hps⟩]

lemma recalc_due_date (t : Task) :
    (recalc_task_status t).due_date = t.due_date := by
  simp only [recalc_task_status, sync_due_date]
  split <;> rfl

lemma recalc_pending (t : Task) :
    (recalc_task_status t).pending_confirmations = t.pending_confirmations := by
  simp only [recalc_task_status, sync_pending]
  split <;> rfl

lemma recalc_awaiting (t : Task) :
    (recalc_task_status t).awaiting_author_confirmation =
      t.awaiting_author_confirmation := by
  simp only [recalc_task_status, sync_awaiting]
  split <;> rfl

lemma refresh_due_date (t : Task) (reference : Int) :
    (refresh_task_status t reference).due_date = t.due_date := by
  simp only [refresh_task_status, restore_from_overdue]
  repeat' split
  all_goals first | rfl | exact recalc_due_date t

lemma refresh_pending (t : Task) (reference : Int) :
    (refresh_task_status t reference).pending_confirmations =
      t.pending_confirmations := by
  simp only [refresh_task_status, restore_from_overdue]
  repeat' split
  all_goals first | rfl | exact recalc_pending t

lemma refresh_awaiting (t : Task) (reference : Int) :
    (refresh_task_status t reference).awaiting_author_confirmation =
      t.awaiting_author_confirmation := by
  simp only [refresh_task_status, restore_from_overdue]
  repeat' split
  all_goals first | rfl | exact recalc_awaiting t

/-! ### Branch values of `calculate_overall_status` -/

lemma calc_eq_in_review (t : Task)
    (hc : t.awaiting_author_confirmation = true ∧
      t.pending_confirmations ≠ ∅) :
    calculate_overall_status t = TaskStatus.IN_REVIEW := by
  unfold calculate_overall_status
  rw [if_pos hc]

lemma calc_eq_active_of (t : Task)
    (hnc : ¬(t.awaiting_author_confirmation = true ∧
      t.pending_confirmations ≠ ∅))
    (hact : ∃ p ∈ non_author_participants t,
      get_participant_status t p = TaskStatus.ACTIVE) :
    calculate_overall_status t = TaskStatus.ACTIVE := by
  obtain ⟨p, hp, hps⟩ := hact
  have hne : ¬(non_author_participants t = ∅) := by
    intro h
    rw [h] at hp
    exact absurd hp (Finset.not_mem_empty p)
  have hnall : ¬(∀ q ∈ non_author_participants t,
      get_participant_status t q = TaskStatus.COMPLETED) := by
    intro hall
    have hcc := hall p hp
    rw [hps] at hcc
    exact TaskStatus.noConfusion hcc
  unfold calculate_overall_status
  rw [if_neg hnc, if_neg hne, if_neg hnall, if_pos ⟨p, hp, hps⟩]

lemma calc_eq_paused_of (t : Task)
    (hnc : ¬(t.awaiting_author_confirmation = true ∧
      t.pending_confirmations ≠ ∅))
    (hna : ¬∃ p ∈ non_author_participants t,
      get_participant_status t p = TaskStatus.ACTIVE)
    (hpz : ∃ p ∈ non_author_participants t,
      get_participant_status t p = TaskStatus.PAUSED) :
    calculate_overall_status t = TaskStatus.PAUSED := by
  obtain ⟨p, hp, hps⟩ := hpz
  have hne : ¬(non_author_participants t = ∅) := by
    intro h
    rw [h] at hp
    exact absurd hp (Finset.not_mem_empty p)
  have hnall : ¬(∀ q ∈ non_author_participants t,
      get_participant_status t q = TaskStatus.COMPLETED) := by
    intro hall
    have hcc := hall p hp
    rw [hps] at hcc
    exact TaskStatus.noConfusion hcc
  unfold calculate_overall_status
  rw [if_neg hnc, if_neg hne, if_neg hnall, if_neg hna, if_pos ⟨p, hp, hps⟩]

lemma calc_eq_completed_of (t : Task)
    (hnc : ¬(t.awaiting_author_confirmation = true ∧
      t.pending_confirmations ≠ ∅))
    (hne : non_author_participants t ≠ ∅)
    (hall : ∀ p ∈ non_author_participants t,
      get_participant_status t p = TaskStatus.COMPLETED) :
    calculate_overall_status t = TaskStatus.COMPLETED := by
  unfold calculate_overall_status
  rw [if_neg hnc, if_neg hne, if_pos hall]

lemma calc_eq_new_of (t : Task)
    (hnc : ¬(t.awaiting_author_confirmation = true ∧
      t.pending_confirmations ≠ ∅))
    (hne : non_author_participants t ≠ ∅)
    (hnall : ¬∀ p ∈ non_author_participants t,
      get_participant_status t p = TaskStatus.COMPLETED)
    (hna : ¬∃ p ∈ non_author_participants t,
      get_participant_status t p = TaskStatus.ACTIVE)
    (hnp : ¬∃ p ∈ non_author_participants t,
      get_participant_status t p = TaskStatus.PAUSED) :
    calculate_overall_status t = TaskStatus.NEW := by
  unfold calculate_overall_status
  rw [if_neg hnc, if_neg hne, if_neg hnall, if_neg hna, if_neg hnp, ite_self]

lemma get_write_self (t : Task) (u : Nat) (v : TaskStatus) :
    get_participant_status (writeStatus t u v) u = v := by
  unfold get_participant_status writeStatus
  exact Function.update_same u v t.participant_statuses

/-- The heart of claim C2: once `_sync_author_status` has run on a task
with at least one non-author participant, the author entry agrees with
the aggregate derivation, despite the two derivations checking their
branches in different orders. -/
lemma sync_gives_overall (t : Task)
    (h : non_author_participants t ≠ ∅) :
    get_participant_status (_sync_author_status t) t.author_id =
      calculate_overall_status (_sync_author_status t) := by
  by_cases hc : t.awaiting_author_confirmation = true ∧
      t.pending_confirmations ≠ ∅
  · have hs : _sync_author_status t =
        writeStatus t t.author_id TaskStatus.IN_REVIEW := by
      unfold _sync_author_status
      rw [if_neg h, if_pos hc]
    rw [hs, get_write_self, calc_write_author, calc_eq_in_review t hc]
  · by_cases ha : ∃ p ∈ non_author_participants t,
        get_participant_status t p = TaskStatus.ACTIVE
    · have hs : _sync_author_status t =
          writeStatus t t.author_id TaskStatus.ACTIVE := by
        unfold _sync_author_status
        rw [if_neg h, if_neg hc, if_pos ha]
      rw [hs, get_write_self, calc_write_author, calc_eq_active_of t hc ha]
    · by_cases hp : ∃ p ∈ non_author_participants t,
          get_participant_status t p = TaskStatus.PAUSED
      · have hs : _sync_author_status t =
            writeStatus t t.author_id TaskStatus.PAUSED := by
          unfold _sync_author_status
          rw [if_neg h, if_neg hc, if_neg ha, if_pos hp]
        rw [hs, get_write_self, calc_write_author,
          calc_eq_paused_of t hc ha hp]
      · by_cases hall : ∀ p ∈ non_author_participants t,
            get_participant_status t p = TaskStatus.COMPLETED
        · have hs : _sync_author_status t =
              writeStatus t t.author_id TaskStatus.COMPLETED := by
            unfold _sync_author_status
            rw [if_neg h, if_neg hc, if_neg ha, if_neg hp, if_pos hall]
          rw [hs, get_write_self, calc_write_author,
            calc_eq_completed_of t hc h hall]
        · have hs : _sync_author_status t =
              writeStatus t t.author_id TaskStatus.NEW := by
            unfold _sync_author_status
            rw [if_neg h, if_neg hc, if_neg ha, if_neg hp, if_neg hall]
          rw [hs, get_write_self, calc_write_author,
            calc_eq_new_of t hc h hall ha hp]

/-- On an OVERDUE task whose due date is no longer strictly in the past,
`refresh_task_status` takes one of its two restore arms. -/
lemma refresh_restores (t : Task) (reference : Int)
    (hst : t.status = TaskStatus.OVERDUE)
    (hdb : due_before t reference = false)
    (hrest : due_on_or_after t reference = true ∨ t.due_date = none) :
    refresh_task_status t reference = restore_from_overdue t := by
  have hnC : ¬(t.status = TaskStatus.COMPLETED) := by
    rw [hst]
    decide
  have hnb : ¬(due_before t reference = true) := by
    rw [hdb]
    decide
  simp only [refresh_task_status]
  rw [if_neg hnC, if_neg hnb, if_pos hst]
  rcases hrest with h | h
  · rw [if_pos h]
  · have hnoa : ¬(due_on_or_after t reference = true) := by
      unfold due_on_or_after
      rw [h]
      exact fun hx => Bool.noConfusion hx
    rw [if_neg hnoa, if_pos h]

/-- Recomputation establishes the snapshot invariant outright: `recalc_task_status` establishes the snapshot invariant outright:
when the status is not OVERDUE it writes `none` into the snapshot, and
when it is OVERDUE the hypothesis of the invariant is vacuous. -/
lemma recalc_snapshot_only (t : Task) :
    snapshot_only_when_overdue (recalc_task_status t) := by
  by_cases ht : t.status = TaskStatus.OVERDUE
  · have hr : recalc_task_status t = _sync_author_status
        { t with
            status_before_overdue := some (calculate_overall_status t) } := by
      simp only [recalc_task_status]
      rw [if_pos ht]
    intro hno
    exfalso
    apply hno
    rw [hr, sync_status]
    exact ht
  · have hr : recalc_task_status t = _sync_author_status
        { t with status := calculate_overall_status t,
                 status_before_overdue := none } := by
      simp only [recalc_task_status]
      rw [if_neg ht]
    intro hno
    rw [hr, sync_status_before_overdue]

/-- Refreshing preserves the snapshot invariant: `refresh_task_status` preserves the snapshot invariant. -/
lemma refresh_snapshot_only (t : Task) (reference : Int)
    (h : snapshot_only_when_overdue t) :
    snapshot_only_when_overdue (refresh_task_status t reference) := by
  by_cases hC : t.status = TaskStatus.COMPLETED
  · unfold refresh_task_status
    rw [if_pos hC]
    exact h
  · by_cases hdb : due_before t reference = true
    · simp only [refresh_task_status]
      rw [if_neg hC, if_pos hdb]
      intro hno
      exact absurd rfl hno
    · by_cases hO : t.status = TaskStatus.OVERDUE
      · by_cases ha : due_on_or_after t reference = true
        · simp only [refresh_task_status]
          rw [if_neg hC, if_neg hdb, if_pos hO, if_pos ha]
          intro _
          rfl
        · by_cases hn : t.due_date = none
          · simp only [refresh_task_status]
            rw [if_neg hC, if_neg hdb, if_pos hO, if_neg ha, if_pos hn]
            intro _
            rfl
          · simp only [refresh_task_status]
            rw [if_neg hC, if_neg hdb, if_pos hO, if_neg ha, if_neg hn]
            exact h
      · simp only [refresh_task_status]
        rw [if_neg hC, if_neg hdb, if_neg hO]
        exact recalc_snapshot_only t

/-! ## Claim theorems -/

/-- C1: for every task satisfying the data-model invariant that the
`awaiting_author_confirmation` flag tracks non-emptiness of the
pending-confirmation set, `calculate_overall_status` returns exactly the
status given by the precedence order of the spec (IN_REVIEW / empty→NEW /
all-COMPLETED / any-ACTIVE / any-PAUSED / NEW); in particular, with no
confirmation pending, any non-author ACTIVE entry forces the result
ACTIVE regardless of how many entries are PAUSED. -/
theorem C1_overall_status_matches_spec_precedence :
    ∀ t : Task,
      (t.awaiting_author_confirmation = true ↔
        t.pending_confirmations ≠ ∅) →
      calculate_overall_status t = calculate_overall_status_spec t ∧
        (t.awaiting_author_confirmation = false →
          (∃ p ∈ non_author_participants t,
            get_participant_status t p = TaskStatus.ACTIVE) →
          calculate_overall_status t = TaskStatus.ACTIVE) := by
  intro t hinv
  constructor
  · by_cases haw : t.awaiting_author_confirmation = true
    · rw [calc_eq_in_review t ⟨haw, hinv.mp haw⟩]
      unfold calculate_overall_status_spec
      rw [if_pos haw]
    · have hnc : ¬(t.awaiting_author_confirmation = true ∧
          t.pending_confirmations ≠ ∅) := fun hcc => haw hcc.1
      unfold calculate_overall_status calculate_overall_status_spec
      rw [if_neg hnc, if_neg haw, ite_self]
  · intro haw hact
    refine calc_eq_active_of t ?_ hact
    rintro ⟨h1, -⟩
    rw [haw] at h1
    exact Bool.noConfusion h1

/-- Witness for C1 at a concrete task (author 1, workgroup {2, 3},
participant 2 ACTIVE, participant 3 NEW, no confirmation pending). -/
theorem C1_witness :
    calculate_overall_status activeTask =
        calculate_overall_status_spec activeTask ∧
      calculate_overall_status activeTask = TaskStatus.ACTIVE :=
  ⟨(C1_overall_status_matches_spec_precedence activeTask (by decide)).1,
    (C1_overall_status_matches_spec_precedence activeTask (by decide)).2
      (by decide) (by decide)⟩

/-- C2: immediately after `_sync_author_status` has run — hence after
`set_participant_status` on a non-author participant, after
`set_all_participants_status`, and after `recalc_task_status` — the
author entry in the participant-status mapping equals
`calculate_overall_status` of the resulting task, whenever at least one
non-author participant exists. -/
theorem C2_author_entry_equals_aggregate :
    (∀ t : Task, non_author_participants t ≠ ∅ →
      get_participant_status (_sync_author_status t)
          ((_sync_author_status t).author_id) =
        calculate_overall_status (_sync_author_status t)) ∧
    (∀ (t : Task) (u : Nat) (s : TaskStatus), u ≠ t.author_id →
      non_author_participants t ≠ ∅ →
      get_participant_status (set_participant_status t u s)
          ((set_participant_status t u s).author_id) =
        calculate_overall_status (set_participant_status t u s)) ∧
    (∀ (t : Task) (s : TaskStatus), non_author_participants t ≠ ∅ →
      get_participant_status (set_all_participants_status t s)
          ((set_all_participants_status t s).author_id) =
        calculate_overall_status (set_all_participants_status t s)) ∧
    (∀ t : Task, non_author_participants t ≠ ∅ →
      get_participant_status (recalc_task_status t)
          ((recalc_task_status t).author_id) =
        calculate_overall_status (recalc_task_status t)) := by
  refine ⟨?_, ?_, ?_, ?_⟩
  · intro t h
    rw [sync_author_id]
    exact sync_gives_overall t h
  · intro t u s hu h
    have hset : set_participant_status t u s =
        _sync_author_status (writeStatus t u s) := by
      unfold set_participant_status
      rw [if_pos hu]
    rw [hset, sync_author_id]
    exact sync_gives_overall (writeStatus t u s) h
  · intro t s h
    simp only [set_all_participants_status]
    rw [sync_author_id]
    exact sync_gives_overall _ h
  · intro t h
    by_cases ht : t.status = TaskStatus.OVERDUE
    · have hr : recalc_task_status t = _sync_author_status
          { t with
              status_before_overdue := some (calculate_overall_status t) } := by
        simp only [recalc_task_status]
        rw [if_pos ht]
      rw [hr, sync_author_id]
      exact sync_gives_overall _ h
    · have hr : recalc_task_status t = _sync_author_status
          { t with status := calculate_overall_status t,
                   status_before_overdue := none } := by
        simp only [recalc_task_status]
        rw [if_neg ht]
      rw [hr, sync_author_id]
      exact sync_gives_overall _ h

/-- Witness for C2: all four entry points evaluated at a concrete task. -/
theorem C2_witness :
    get_participant_status (_sync_author_status activeTask)
        ((_sync_author_status activeTask).author_id) =
      calculate_overall_status (_sync_author_status activeTask) ∧
    get_participant_status
        (set_participant_status activeTask 2 TaskStatus.PAUSED)
        ((set_participant_status activeTask 2 TaskStatus.PAUSED).author_id) =
      calculate_overall_status
        (set_participant_status activeTask 2 TaskStatus.PAUSED) ∧
    get_participant_status
        (set_all_participants_status activeTask TaskStatus.COMPLETED)
        ((set_all_participants_status activeTask
          TaskStatus.COMPLETED).author_id) =
      calculate_overall_status
        (set_all_participants_status activeTask TaskStatus.COMPLETED) ∧
    get_participant_status (recalc_task_status activeTask)
        ((recalc_task_status activeTask).author_id) =
      calculate_overall_status (recalc_task_status activeTask) :=
  ⟨C2_author_entry_equals_aggregate.1 activeTask (by decide),
    C2_author_entry_equals_aggregate.2.1 activeTask 2 TaskStatus.PAUSED
      (by decide) (by decide),
    C2_author_entry_equals_aggregate.2.2.1 activeTask TaskStatus.COMPLETED
      (by decide),
    C2_author_entry_equals_aggregate.2.2.2 activeTask (by decide)⟩

/-- Counterexample to C4 as frozen: a task whose single non-author
participant is COMPLETED but whose confirmation is still pending has
aggregate status IN_REVIEW, not COMPLETED, so the "iff" fails
right-to-left on such tasks. -/
theorem C4_counterexample :
    non_author_participants completedPendingTask ≠ ∅ ∧
    (∀ p ∈ non_author_participants completedPendingTask,
      get_participant_status completedPendingTask p =
        TaskStatus.COMPLETED) ∧
    calculate_overall_status completedPendingTask =
      TaskStatus.IN_REVIEW ∧
    calculate_overall_status completedPendingTask ≠
      TaskStatus.COMPLETED := by decide

/-- C4 (amended): for every task with a non-empty set of non-author
participants that is not awaiting author confirmation,
`calculate_overall_status` returns COMPLETED iff the status of every
non-author participant is COMPLETED. -/
theorem C4_completed_iff_all_completed :
    ∀ t : Task, non_author_participants t ≠ ∅ →
      t.awaiting_author_confirmation = false →
      (calculate_overall_status t = TaskStatus.COMPLETED ↔
        ∀ p ∈ non_author_participants t,
          get_participant_status t p = TaskStatus.COMPLETED) := by
  intro t hne haw
  have hnc : ¬(t.awaiting_author_confirmation = true ∧
      t.pending_confirmations ≠ ∅) := by
    rintro ⟨h1, -⟩
    rw [haw] at h1
    exact Bool.noConfusion h1
  constructor
  · intro hC
    by_contra hnall
    by_cases ha : ∃ p ∈ non_author_participants t,
        get_participant_status t p = TaskStatus.ACTIVE
    · rw [calc_eq_active_of t hnc ha] at hC
      exact TaskStatus.noConfusion hC
    · by_cases hp : ∃ p ∈ non_author_participants t,
          get_participant_status t p = TaskStatus.PAUSED
      · rw [calc_eq_paused_of t hnc ha hp] at hC
        exact TaskStatus.noConfusion hC
      · rw [calc_eq_new_of t hnc hne hnall ha hp] at hC
        exact TaskStatus.noConfusion hC
  · intro hall
    exact calc_eq_completed_of t hnc hne hall

/-- Witness for the amended C4 at a concrete all-COMPLETED task. -/
theorem C4_witness :
    calculate_overall_status completedTask = TaskStatus.COMPLETED ↔
      ∀ p ∈ non_author_participants completedTask,
        get_participant_status completedTask p = TaskStatus.COMPLETED :=
  C4_completed_iff_all_completed completedTask (by decide) (by decide)

/-- C9: `refresh_task_status` returns a COMPLETED task entirely
unchanged, for every reference time (the equality is of whole `Task`
records, so every field keeps its value). -/
theorem C9_completed_task_untouched :
    ∀ (t : Task) (reference : Int), t.status = TaskStatus.COMPLETED →
      refresh_task_status t reference = t := by
  intro t reference h
  unfold refresh_task_status
  rw [if_pos h]

/-- Witness for C9 at a concrete COMPLETED task whose due date lies in
the past of the reference time. -/
theorem C9_witness :
    refresh_task_status completedTask 100 = completedTask :=
  C9_completed_task_untouched completedTask 100 rfl

/-- Counterexample to C3 as frozen: `staleOverdueTask` satisfies every
hypothesis of the claim (not COMPLETED, not awaiting confirmation, one
non-author participant ACTIVE, due date strictly before the reference 1),
yet `refresh_task_status` does not snapshot ACTIVE — the task is already
OVERDUE, so the stale PAUSED snapshot is kept and the later restore
yields PAUSED, not ACTIVE. -/
theorem C3_counterexample :
    staleOverdueTask.status ≠ TaskStatus.COMPLETED ∧
    staleOverdueTask.awaiting_author_confirmation = false ∧
    (∃ p ∈ non_author_participants staleOverdueTask,
      get_participant_status staleOverdueTask p = TaskStatus.ACTIVE) ∧
    staleOverdueTask.due_date = some 0 ∧ (0 : Int) < 1 ∧
    (refresh_task_status staleOverdueTask 1).status = TaskStatus.OVERDUE ∧
    (refresh_task_status staleOverdueTask 1).status_before_overdue ≠
      some TaskStatus.ACTIVE ∧
    (refresh_task_status
        { (refresh_task_status staleOverdueTask 1) with due_date := some 5 }
        2).status = TaskStatus.PAUSED := by decide

/-- C3 (amended): for every task that is not COMPLETED, **is not already
OVERDUE**, is not awaiting author confirmation, and has a non-author
participant with status ACTIVE, refreshing with a reference time strictly
after the due date sets the status to OVERDUE and snapshots ACTIVE; a
subsequent refresh after the due date has been moved to on/after the new
reference time, or cleared entirely, restores ACTIVE (not NEW) and clears
the snapshot. -/
theorem C3_overdue_round_trip :
    ∀ (t : Task) (d reference : Int),
      t.status ≠ TaskStatus.COMPLETED →
      t.status ≠ TaskStatus.OVERDUE →
      t.awaiting_author_confirmation = false →
      (∃ p ∈ non_author_participants t,
        get_participant_status t p = TaskStatus.ACTIVE) →
      t.due_date = some d → d < reference →
      (refresh_task_status t reference).status = TaskStatus.OVERDUE ∧
      (refresh_task_status t reference).status_before_overdue =
        some TaskStatus.ACTIVE ∧
      (∀ d2 ref2 : Int, ref2 ≤ d2 →
        (refresh_task_status
            { (refresh_task_status t reference) with due_date := some d2 }
            ref2).status = TaskStatus.ACTIVE ∧
        (refresh_task_status
            { (refresh_task_status t reference) with due_date := some d2 }
            ref2).status_before_overdue = none) ∧
      (∀ ref2 : Int,
        (refresh_task_status
            { (refresh_task_status t reference) with due_date := none }
            ref2).status = TaskStatus.ACTIVE ∧
        (refresh_task_status
            { (refresh_task_status t reference) with due_date := none }
            ref2).status_before_overdue = none) := by
  intro t d reference hC hO haw hact hdue hlt
  have hnc : ¬(t.awaiting_author_confirmation = true ∧
      t.pending_confirmations ≠ ∅) := by
    rintro ⟨h1, -⟩
    rw [haw] at h1
    exact Bool.noConfusion h1
  have hcalc : calculate_overall_status t = TaskStatus.ACTIVE :=
    calc_eq_active_of t hnc hact
  have hdb : due_before t reference = true := by
    unfold due_before
    rw [hdue]
    exact decide_eq_true hlt
  have hr : refresh_task_status t reference =
      { t with status := TaskStatus.OVERDUE,
               status_before_overdue := some TaskStatus.ACTIVE } := by
    simp only [refresh_task_status]
    rw [if_neg hC, if_pos hdb, if_pos hO, hcalc]
  refine ⟨by rw [hr], by rw [hr], ?_, ?_⟩
  · intro d2 ref2 hle
    have h2 : { (refresh_task_status t reference) with due_date := some d2 } =
        { t with status := TaskStatus.OVERDUE,
                 status_before_overdue := some TaskStatus.ACTIVE,
                 due_date := some d2 } := by
      rw [hr]
    have hrest : refresh_task_status
        { t with status := TaskStatus.OVERDUE,
                 status_before_overdue := some TaskStatus.ACTIVE,
                 due_date := some d2 } ref2 =
        restore_from_overdue
          { t with status := TaskStatus.OVERDUE,
                   status_before_overdue := some TaskStatus.ACTIVE,
                   due_date := some d2 } :=
      refresh_restores _ ref2 rfl (decide_eq_false (not_lt.mpr hle))
        (Or.inl (decide_eq_true hle))
    rw [h2, hrest]
    exact ⟨rfl, rfl⟩
  · intro ref2
    have h2 : { (refresh_task_status t reference) with due_date := none } =
        { t with status := TaskStatus.OVERDUE,
                 status_before_overdue := some TaskStatus.ACTIVE,
                 due_date := (none : Option Int) } := by
      rw [hr]
    have hrest : refresh_task_status
        { t with status := TaskStatus.OVERDUE,
                 status_before_overdue := some TaskStatus.ACTIVE,
                 due_date := (none : Option Int) } ref2 =
        restore_from_overdue
          { t with status := TaskStatus.OVERDUE,
                   status_before_overdue := some TaskStatus.ACTIVE,
                   due_date := (none : Option Int) } :=
      refresh_restores _ ref2 rfl rfl (Or.inr rfl)
    rw [h2, hrest]
    exact ⟨rfl, rfl⟩

/-- Witness for the amended C3 at `dueActiveTask` (stored status ACTIVE,
due date 0): refresh at time 1 goes OVERDUE snapshotting ACTIVE, and the
round trip back (due moved to 5, refresh at 2, or due cleared, refresh at
7) restores ACTIVE. -/
theorem C3_witness :
    (refresh_task_status dueActiveTask 1).status = TaskStatus.OVERDUE ∧
    (refresh_task_status dueActiveTask 1).status_before_overdue =
      some TaskStatus.ACTIVE ∧
    (refresh_task_status
        { (refresh_task_status dueActiveTask 1) with due_date := some 5 }
        2).status = TaskStatus.ACTIVE ∧
    (refresh_task_status
        { (refresh_task_status dueActiveTask 1) with due_date := none }
        7).status = TaskStatus.ACTIVE :=
  ⟨(C3_overdue_round_trip dueActiveTask 0 1 (by decide) (by decide)
      (by decide) (by decide) (by decide) (by decide)).1,
    (C3_overdue_round_trip dueActiveTask 0 1 (by decide) (by decide)
      (by decide) (by decide) (by decide) (by decide)).2.1,
    ((C3_overdue_round_trip dueActiveTask 0 1 (by decide) (by decide)
      (by decide) (by decide) (by decide) (by decide)).2.2.1 5 2
      (by decide)).1,
    ((C3_overdue_round_trip dueActiveTask 0 1 (by decide) (by decide)
      (by decide) (by decide) (by decide) (by decide)).2.2.2 7).1⟩

/-- C5: when no due date is supplied, the creation flow computes the due
date as the creation date plus the offset in days of the priority
(CRITICAL = 1, HIGH = 3, MEDIUM = 10, LOW = 15; the fallback
default of 10 is unreachable for the closed priority enum). -/
theorem C5_auto_due_date_from_priority :
    ∀ (task_id : Nat) (created_date now : Int) (title descr : String)
      (author_id : Nat) (priority : TaskPriority)
      (project direction : String) (responsible_user_id : Nat)
      (workgroup : List Nat) (is_private : Bool),
      (create_task_with_auto_due task_id created_date now title descr
          author_id priority none project direction responsible_user_id
          workgroup is_private).due_date =
        some (created_date +
          (match priority with
            | TaskPriority.CRITICAL => 1
            | TaskPriority.HIGH => 3
            | TaskPriority.MEDIUM => 10
            | TaskPriority.LOW => 15) * 86400) := by
  intro task_id created_date now title descr author_id priority project
    direction responsible_user_id workgroup is_private
  simp only [create_task_with_auto_due, create_task]
  rw [refresh_due_date]
  cases priority <;> rfl

/-- C6: `recipients_on_confirmation` is total (it is a function in the
embedding), returns a `Finset`, and that set is exactly the confirmed
participant plus the author and the responsible with the actor excluded
(`recipients_on_confirmation_spec`), for every combination of
identifiers — including author = responsible = actor, actor =
participant, and an unset responsible. -/
theorem C6_recipients_on_confirmation_exact :
    ∀ (author_id : Nat) (responsible_id : Option Nat)
      (actor_id participant_id : Nat),
      recipients_on_confirmation author_id responsible_id actor_id
          participant_id =
        recipients_on_confirmation_spec author_id responsible_id actor_id
          participant_id := by
  intro a r act p
  simp only [recipients_on_confirmation, recipients_on_confirmation_spec]
  cases r with
  | none =>
      ext x
      by_cases h1 : a = act
      all_goals simp [h1, Finset.mem_insert, Finset.mem_sdiff,
        Finset.mem_singleton]
      all_goals aesop
  | some rid =>
      ext x
      by_cases h0 : rid = 0 <;> by_cases hra : rid = act <;>
        by_cases h1 : a = act
      all_goals simp [h0, hra, h1, Finset.mem_insert, Finset.mem_sdiff,
        Finset.mem_singleton]
      all_goals aesop

/-- C7: the invariant `awaiting_author_confirmation == (pending set
non-empty)` holds for a freshly created task and is preserved by
`add_pending_confirmation`, `remove_pending_confirmation` and
`clear_pending_confirmations`. -/
theorem C7_pending_flag_invariant :
    (∀ (task_id : Nat) (created_date now : Int) (title descr : String)
      (author_id : Nat) (priority : TaskPriority) (due_date : Option Int)
      (project direction : String) (responsible_user_id : Nat)
      (workgroup : List Nat) (is_private : Bool),
      pending_flag_consistent
        (create_task task_id created_date now title descr author_id
          priority due_date project direction responsible_user_id workgroup
          is_private)) ∧
    (∀ (t : Task) (u : Nat), pending_flag_consistent t →
      pending_flag_consistent (add_pending_confirmation t u)) ∧
    (∀ (t : Task) (u : Nat), pending_flag_consistent t →
      pending_flag_consistent (remove_pending_confirmation t u)) ∧
    (∀ t : Task, pending_flag_consistent t →
      pending_flag_consistent (clear_pending_confirmations t)) := by
  refine ⟨?_, ?_, ?_, ?_⟩
  · intro task_id created_date now title descr author_id priority due_date
      project direction responsible_user_id workgroup is_private
    unfold pending_flag_consistent
    simp only [create_task]
    rw [refresh_awaiting, refresh_pending]
    simp
  · intro t u _
    unfold pending_flag_consistent add_pending_confirmation
    rw [recalc_awaiting, recalc_pending]
    simp [Finset.insert_ne_empty]
  · intro t u hinv
    unfold pending_flag_consistent remove_pending_confirmation
    rw [recalc_awaiting, recalc_pending]
    by_cases he : t.pending_confirmations.erase u = ∅
    · rw [if_pos he]
      simp [he]
    · rw [if_neg he]
      have hpe : t.pending_confirmations ≠ ∅ := by
        intro hp
        apply he
        rw [hp]
        exact Finset.erase_empty u
      exact iff_of_true (hinv.mpr hpe) he
  · intro t _
    unfold pending_flag_consistent clear_pending_confirmations
    rw [recalc_awaiting, recalc_pending]
    simp

/-- Witness for C7: the invariant evaluated through each operation at
concrete tasks. -/
theorem C7_witness :
    pending_flag_consistent
      (create_task 1 0 0 "t" "" 1 TaskPriority.LOW none "" "" 0 [2]
        false) ∧
    pending_flag_consistent (add_pending_confirmation activeTask 2) ∧
    pending_flag_consistent
      (remove_pending_confirmation completedPendingTask 2) ∧
    pending_flag_consistent
      (clear_pending_confirmations completedPendingTask) :=
  ⟨C7_pending_flag_invariant.1 1 0 0 "t" "" 1 TaskPriority.LOW none "" ""
      0 [2] false,
    C7_pending_flag_invariant.2.1 activeTask 2 (by decide),
    C7_pending_flag_invariant.2.2.1 completedPendingTask 2 (by decide),
    C7_pending_flag_invariant.2.2.2 completedPendingTask (by decide)⟩

/-- C8: the author sees every entry; a non-author viewer sees exactly the
entries characterized by `visible_to_non_author` (their own entries, plus
status changes naming them, minus author-driven status changes naming
more than one participant); and a non-status-change entry a non-author
viewer sees is always their own. -/
theorem C8_feed_filter_exact :
    ∀ (entries : List ActivityEntry) (viewer_id author_id : Nat),
      (viewer_id = author_id →
        filter_activity_feed entries viewer_id author_id = entries) ∧
      (viewer_id ≠ author_id →
        filter_activity_feed entries viewer_id author_id =
          entries.filter (fun e =>
            decide (visible_to_non_author viewer_id author_id e)) ∧
        ∀ e ∈ filter_activity_feed entries viewer_id author_id,
          e.is_status_change = false → e.actor_id = viewer_id) := by
  intro entries viewer author
  constructor
  · intro h
    unfold filter_activity_feed
    rw [if_pos h]
  · intro h
    have hfe : filter_activity_feed entries viewer author =
        entries.filter (fun e =>
          decide (visible_to_non_author viewer author e)) := by
      unfold filter_activity_feed
      rw [if_neg h]
      congr 1
      funext e
      by_cases h1 : e.actor_id = viewer
      · simp [h1, visible_to_non_author]
      · cases hsc : e.is_status_change with
        | false => simp [h1, hsc, visible_to_non_author]
        | true =>
            by_cases h3 : viewer ∈ e.related_participants
            · by_cases h4 : e.actor_id = author ∧
                  1 < e.related_participants.card
              · simp [h1, hsc, h3, h4, visible_to_non_author]
              · simp [h1, hsc, h3, h4, visible_to_non_author]
            · simp [h1, hsc, h3, visible_to_non_author]
    refine ⟨hfe, ?_⟩
    intro e he hns
    rw [hfe] at he
    have hd := (List.mem_filter.mp he).2
    have hv : visible_to_non_author viewer author e := of_decide_eq_true hd
    rcases hv with h1 | ⟨h2, -, -⟩
    · exact h1
    · rw [hns] at h2
      exact Bool.noConfusion h2

/-- Witness for C8 on `feedEntries`: the author (viewer 1) sees all five
entries; viewer 3 sees exactly the characterized sublist. -/
theorem C8_witness :
    filter_activity_feed feedEntries 1 1 = feedEntries ∧
    filter_activity_feed feedEntries 3 1 =
      feedEntries.filter (fun e => decide (visible_to_non_author 3 1 e)) :=
  ⟨(C8_feed_filter_exact feedEntries 1 1).1 rfl,
    ((C8_feed_filter_exact feedEntries 3 1).2 (by decide)).1⟩

/-- C10: `status_before_overdue` is null at creation and the invariant
"snapshot non-null only while the stored status is OVERDUE" is preserved
by `refresh_task_status` and `recalc_task_status`, and therefore by every
Status Engine mutator (each either leaves both fields untouched, as
`set_participant_status` / `set_all_participants_status` do, or ends in
`recalc_task_status`, as the confirmation mutators do). -/
theorem C10_snapshot_null_unless_overdue :
    (∀ (task_id : Nat) (created_date now : Int) (title descr : String)
      (author_id : Nat) (priority : TaskPriority) (due_date : Option Int)
      (project direction : String) (responsible_user_id : Nat)
      (workgroup : List Nat) (is_private : Bool),
      snapshot_only_when_overdue
        (create_task task_id created_date now title descr author_id
          priority due_date project direction responsible_user_id workgroup
          is_private)) ∧
    (∀ (t : Task) (reference : Int), snapshot_only_when_overdue t →
      snapshot_only_when_overdue (refresh_task_status t reference)) ∧
    (∀ t : Task, snapshot_only_when_overdue t →
      snapshot_only_when_overdue (recalc_task_status t)) ∧
    (∀ (t : Task) (u : Nat) (s : TaskStatus),
      snapshot_only_when_overdue t →
      snapshot_only_when_overdue (set_participant_status t u s)) ∧
    (∀ (t : Task) (s : TaskStatus), snapshot_only_when_overdue t →
      snapshot_only_when_overdue (set_all_participants_status t s)) ∧
    (∀ (t : Task) (u : Nat), snapshot_only_when_overdue t →
      snapshot_only_when_overdue (add_pending_confirmation t u)) ∧
    (∀ (t : Task) (u : Nat), snapshot_only_when_overdue t →
      snapshot_only_when_overdue (remove_pending_confirmation t u)) ∧
    (∀ t : Task, snapshot_only_when_overdue t →
      snapshot_only_when_overdue (clear_pending_confirmations t)) := by
  refine ⟨?_, ?_, ?_, ?_, ?_, ?_, ?_, ?_⟩
  · intro task_id created_date now title descr author_id priority due_date
      project direction responsible_user_id workgroup is_private
    simp only [create_task]
    exact refresh_snapshot_only _ now (fun _ => rfl)
  · intro t reference h
    exact refresh_snapshot_only t reference h
  · intro t _
    exact recalc_snapshot_only t
  · intro t u s h
    unfold set_participant_status
    by_cases hu : u ≠ t.author_id
    · rw [if_pos hu]
      intro hno
      rw [sync_status_before_overdue]
      apply h
      rw [sync_status] at hno
      exact hno
    · rw [if_neg hu]
      exact h
  · intro t s h
    simp only [set_all_participants_status]
    intro hno
    rw [sync_status_before_overdue]
    apply h
    rw [sync_status] at hno
    exact hno
  · intro t u _
    exact recalc_snapshot_only _
  · intro t u _
    exact recalc_snapshot_only _
  · intro t _
    exact recalc_snapshot_only _

/-- Witness for C10: the invariant evaluated through each operation at
concrete tasks (including an already-OVERDUE one). -/
theorem C10_witness :
    snapshot_only_when_overdue
      (create_task 9 0 0 "t" "" 1 TaskPriority.HIGH (some (-5)) "" "" 0
        [2] false) ∧
    snapshot_only_when_overdue (refresh_task_status staleOverdueTask 1) ∧
    snapshot_only_when_overdue (recalc_task_status staleOverdueTask) ∧
    snapshot_only_when_overdue
      (set_participant_status activeTask 2 TaskStatus.COMPLETED) ∧
    snapshot_only_when_overdue
      (set_all_participants_status activeTask TaskStatus.PAUSED) ∧
    snapshot_only_when_overdue
      (add_pending_confirmation activeTask 2) ∧
    snapshot_only_when_overdue
      (remove_pending_confirmation completedPendingTask 2) ∧
    snapshot_only_when_overdue
      (clear_pending_confirmations completedPendingTask) :=
  ⟨C10_snapshot_null_unless_overdue.1 9 0 0 "t" "" 1 TaskPriority.HIGH
      (some (-5)) "" "" 0 [2] false,
    C10_snapshot_null_unless_overdue.2.1 staleOverdueTask 1 (by decide),
    C10_snapshot_null_unless_overdue.2.2.1 staleOverdueTask (by decide),
    C10_snapshot_null_unless_overdue.2.2.2.1 activeTask 2
      TaskStatus.COMPLETED (by decide),
    C10_snapshot_null_unless_overdue.2.2.2.2.1 activeTask
      TaskStatus.PAUSED (by decide),
    C10_snapshot_null_unless_overdue.2.2.2.2.2.1 activeTask 2 (by decide),
    C10_snapshot_null_unless_overdue.2.2.2.2.2.2.1 completedPendingTask 2
      (by decide),
    C10_snapshot_null_unless_overdue.2.2.2.2.2.2.2 completedPendingTask
      (by decide)⟩

end TBot
